import Mathlib

/-!
Verification development for the ONNX embedding service (`app.py`).

The numeric pipeline (mean pooling, L2 normalization) is embedded over an
arbitrary linear ordered field `α`, with tensors as nested lists in the
numpy axis order `[batch, sequence, hidden]`.  The float32 arithmetic of
the source is idealized as exact field arithmetic; the square root used by
`np.linalg.norm` is passed as an explicit function parameter so that the
development stays executable over `ℚ` and can be instantiated with
`Real.sqrt` over `ℝ` for the tolerance statements.  The tokenizer and the
ONNX model are black boxes in the source (external libraries), so they are
abstract function parameters here.  Flask routing is modelled as total
functions from a parsed request record to a response value carrying the
HTTP status code.
-/

namespace App

section Numeric

variable {α : Type} [LinearOrderedField α]

/-- Elementwise sum of two vectors (`numpy` broadcast addition on
equal-length rows). -/
def vecAdd (u v : List α) : List α := List.zipWith (· + ·) u v

/-- Sum of a list of vectors, as performed by `np.sum(..., axis=1)` over
the sequence axis. -/
def sumVecs : List (List α) → List α
  | [] => []
  | [v] => v
  | v :: vs => vecAdd v (sumVecs vs)

/-- The mean-pooling divisor of one batch row:
`np.clip(np.sum(input_mask_expanded, axis=1), a_min=1e-9, a_max=None)`.
The expanded mask is constant across the hidden dimension, so the per-row
divisor is the clipped mask sum. -/
def maskDivisor (mrow : List ℕ) : α :=
  max ((mrow.map (fun m => (m : α))).sum) (1 / 1000000000)

/-- `mean_pooling(token_embeddings, attention_mask)` from `app.py`:
broadcast the attention mask over the hidden dimension, multiply
elementwise with the hidden states, sum over the sequence axis and divide
by the clipped mask sum. -/
def mean_pooling (token_embeddings : List (List (List α)))
    (attention_mask : List (List ℕ)) : List (List α) :=
  List.zipWith
    (fun row mrow =>
      let weighted := List.zipWith (fun vec m => vec.map (fun x => x * (m : α))) row mrow
      (sumVecs weighted).map (fun x => x / maskDivisor mrow))
    token_embeddings attention_mask

/-- Sum of squares of a vector (the square of its Euclidean norm). -/
def sumSq (v : List α) : α := (v.map (fun x => x * x)).sum

/-- The normalization divisor of one pooled row:
`np.clip(np.linalg.norm(embeddings, axis=1), a_min=1e-9, a_max=None)`,
with the square root passed explicitly. -/
def normDivisor (sqrt : α → α) (v : List α) : α :=
  max (sqrt (sumSq v)) (1 / 1000000000)

/-- `normalize(embeddings)` from `app.py`: divide each row by its clipped
L2 norm. -/
def normalize (sqrt : α → α) (embeddings : List (List α)) : List (List α) :=
  embeddings.map (fun v => v.map (fun x => x / normDivisor sqrt v))

/-- The pooling-and-normalization stage of `get_embeddings` (lines 79-80
of `app.py`): mean pooling followed by L2 normalization. -/
def pool_and_normalize (sqrt : α → α) (hidden : List (List (List α)))
    (mask : List (List ℕ)) : List (List α) :=
  normalize sqrt (mean_pooling hidden mask)

end Numeric

/-- The output of the tokenizer: padded id rows plus parallel attention
mask rows (1 = real token, 0 = padding). -/
structure TokenBatch where
  input_ids : List (List ℕ)
  attention_mask : List (List ℕ)

section Pipeline

variable {α : Type} [LinearOrderedField α]

/-- `get_embeddings(sentences, prefix)` from `app.py`, with the tokenizer
and the ONNX model as abstract parameters and the module-level
`USE_E5_PREFIX` flag made explicit: optionally prepend `"{prefix}: "` to
every sentence, tokenize, run the model, then pool and normalize. -/
def get_embeddings (sqrt : α → α) (tokenize : List String → TokenBatch)
    (model : TokenBatch → List (List (List α))) (usePrefix : Bool)
    (sentences : List String) (pfx : String) : List (List α) :=
  let prefixed := if usePrefix then sentences.map (fun s => pfx ++ ": " ++ s)
                  else sentences
  let encoded := tokenize prefixed
  let outputs := model encoded
  pool_and_normalize sqrt outputs encoded.attention_mask

/-- Dot product of two vectors (`np.dot`). -/
def dotList (u v : List α) : α := (List.zipWith (· * ·) u v).sum

/-- The similarity computation of the `/similarity` route (lines 129-131
of `app.py`): embed `[text1]` with prefix `"query"` and `[text2]` with
prefix `"passage"`, then take the dot product of the first rows. -/
def similarityScore (sqrt : α → α) (tokenize : List String → TokenBatch)
    (model : TokenBatch → List (List (List α))) (usePrefix : Bool)
    (text1 text2 : String) : α :=
  let emb1 := get_embeddings sqrt tokenize model usePrefix [text1] "query"
  let emb2 := get_embeddings sqrt tokenize model usePrefix [text2] "passage"
  dotList (emb1.headD []) (emb2.headD [])

end Pipeline

/-! ### The `/embed` route -/

/-- A parsed `/embed` request body: each optional field is present or
absent, mirroring `'text' in data` / `'texts' in data` /
`data.get('prefix', 'passage')`. -/
structure EmbedRequest where
  text : Option String
  texts : Option (List String)
  pfx : Option String

/-- The response of the `/embed` route: a success body (with status 200)
or an error body with its HTTP status code. -/
inductive EmbedResponse where
  | ok (embeddings : List (List ℚ)) (dimension : ℕ) (count : ℕ)
  | error (status : ℕ) (message : String)
deriving DecidableEq

/-- The validation step of the `embed` route (lines 100-105 of `app.py`):
`text` takes precedence over `texts`; neither present means a 400. -/
def embedTexts (d : EmbedRequest) : Option (List String) :=
  match d.text with
  | some t => some [t]
  | none => d.texts

/-- `embeddings.shape[1]` of the 2-D result array: the length of a row. -/
def dimensionOf (embeddings : List (List ℚ)) : ℕ := (embeddings.headD []).length

/-- The `embed` route of `app.py`, with the embedding pipeline abstracted
as a fallible function (the `try/except` block catching any exception):
400 when neither `text` nor `texts` is present, otherwise run the pipeline
on the selected texts with the requested prefix (default `"passage"`) and
answer 200 with embeddings, dimension and count, or 500 with the error
string. -/
def embedRoute (pipeline : List String → String → Except String (List (List ℚ)))
    (d : EmbedRequest) : EmbedResponse :=
  match embedTexts d with
  | none => .error 400 "Missing 'text' or 'texts' in request body"
  | some texts =>
    match pipeline texts (d.pfx.getD "passage") with
    | .ok embs => .ok embs (dimensionOf embs) texts.length
    | .error e => .error 500 e

/-! ### The artifact cache -/

/-- The sanitization `model_name.replace('/', '_')` of `app.py` line 26
(a single-character replacement, hence a character map). -/
def sanitizeModelName (s : String) : String :=
  ⟨s.data.map (fun c => if c = '/' then '_' else c)⟩

/-- The deterministic cache path `f"/app/cache/onnx/{model_name.replace('/', '_')}"`. -/
def onnx_path (model_name : String) : String :=
  "/app/cache/onnx/" ++ sanitizeModelName model_name

/-- The artifact-cache step of `app.py` lines 26-35, as the spec's
`ensure_artifact`: given the current filesystem (a predicate on paths) and
the model identifier, return the cache path, whether a conversion was
performed, and the filesystem afterwards (`save_pretrained` writes the
artifact to the cache path when converting). -/
def ensure_artifact (fs : String → Bool) (model_name : String) :
    String × Bool × (String → Bool) :=
  let p := onnx_path model_name
  if fs p then (p, false, fs)
  else (p, true, fun q => q == p || fs q)

/-! ### Concrete instantiations used in examples -/

/-- A square-root function on `ℚ` that is exact on the arguments arising
in the concrete scenarios below (all squared norms there equal 1). -/
def sqrtEx (q : ℚ) : ℚ := if q = 1 then 1 else 0

/-- A toy tokenizer: one token per sentence whose id is the sentence
length, with attention mask 1. -/
def tokEx (ss : List String) : TokenBatch :=
  ⟨ss.map (fun s => [s.length]), ss.map (fun _ => [1])⟩

/-- A toy model: token id 8 yields the hidden vector `[1, 0]`, every other
id yields `[0, 1]`. -/
def mdlEx (tb : TokenBatch) : List (List (List ℚ)) :=
  tb.input_ids.map (fun row => row.map (fun n => if n = 8 then [1, 0] else [0, 1]))

/-! ### Helper lemmas -/

/-- Every element of a `zipWith` comes from a pair of elements of the two
lists. -/
theorem mem_zipWith {β γ δ : Type} {f : β → γ → δ} :
    ∀ {l1 : List β} {l2 : List γ} {x : δ}, x ∈ List.zipWith f l1 l2 →
      ∃ a ∈ l1, ∃ b ∈ l2, x = f a b
  | [], _, x, hx => by simp at hx
  | _ :: _, [], x, hx => by simp at hx
  | a :: l1, b :: l2, x, hx => by
      simp only [List.zipWith_cons_cons, List.mem_cons] at hx
      rcases hx with rfl | hx
      · exact ⟨a, by simp, b, by simp, rfl⟩
      · obtain ⟨a', ha, b', hb, rfl⟩ := mem_zipWith hx
        exact ⟨a', by simp [ha], b', by simp [hb], rfl⟩

/-- Summing vectors all of whose entries are zero yields only zero
entries. -/
theorem sumVecs_eq_zero {α : Type} [LinearOrderedField α] :
    ∀ (l : List (List α)), (∀ w ∈ l, ∀ x ∈ w, x = 0) → ∀ x ∈ sumVecs l, x = 0
  | [], _, x, hx => by simp [sumVecs] at hx
  | [v], h, x, hx => h v (by simp) x (by simpa [sumVecs] using hx)
  | v :: w :: ws, h, x, hx => by
      simp only [sumVecs] at hx
      obtain ⟨a, ha, b, hb, rfl⟩ := mem_zipWith (f := (· + ·)) hx
      rw [h v (by simp) a ha,
        sumVecs_eq_zero (w :: ws) (fun u hu => h u (by simp [hu])) b hb, add_zero]

/-- The dot product is commutative. -/
theorem dotList_comm {α : Type} [LinearOrderedField α] :
    ∀ (u v : List α), dotList u v = dotList v u
  | [], v => by cases v <;> simp [dotList]
  | _ :: _, [] => by simp [dotList]
  | a :: u, b :: v => by
      have ih := dotList_comm u v
      simp only [dotList, List.zipWith_cons_cons, List.sum_cons] at ih ⊢
      rw [mul_comm a b, ih]

/-! ### Claims -/

/-- C4: for every input list of texts and every prefix string, when prefix
mode is enabled `"{prefix}: "` is prepended to every text before
tokenization, and when it is disabled the texts reach the tokenizer
unmodified. -/
theorem claim_C4 {α : Type} [LinearOrderedField α] (sqrt : α → α)
    (tokenize : List String → TokenBatch)
    (model : TokenBatch → List (List (List α)))
    (texts : List String) (pfx : String) :
    get_embeddings sqrt tokenize model true texts pfx =
      pool_and_normalize sqrt
        (model (tokenize (texts.map (fun s => pfx ++ ": " ++ s))))
        (tokenize (texts.map (fun s => pfx ++ ": " ++ s))).attention_mask ∧
    get_embeddings sqrt tokenize model false texts pfx =
      pool_and_normalize sqrt (model (tokenize texts))
        (tokenize texts).attention_mask :=
  ⟨rfl, rfl⟩

/-- C3: `similarity(text1, text2)` is the dot product of the embedding of
`[text1]` computed with prefix `"query"` and the embedding of `[text2]`
computed with prefix `"passage"`, each from its own `get_embeddings` call
on a singleton batch. -/
theorem claim_C3 {α : Type} [LinearOrderedField α] (sqrt : α → α)
    (tokenize : List String → TokenBatch)
    (model : TokenBatch → List (List (List α)))
    (usePrefix : Bool) (t1 t2 : String) :
    similarityScore sqrt tokenize model usePrefix t1 t2 =
      dotList ((get_embeddings sqrt tokenize model usePrefix [t1] "query").headD [])
        ((get_embeddings sqrt tokenize model usePrefix [t2] "passage").headD []) :=
  rfl

/-- C5: the cache path is a pure function of the model identifier whose
sanitized segment contains no `/`, and `ensure_artifact` is idempotent: a
second call for the same identifier returns the same path and performs no
conversion. -/
theorem claim_C5 (fs : String → Bool) (m : String) :
    (ensure_artifact fs m).1 = onnx_path m ∧
    (ensure_artifact (ensure_artifact fs m).2.2 m).1 = (ensure_artifact fs m).1 ∧
    (ensure_artifact (ensure_artifact fs m).2.2 m).2.1 = false ∧
    ∀ c ∈ (sanitizeModelName m).data, c ≠ '/' := by
  refine ⟨?_, ?_, ?_, ?_⟩
  · by_cases h : fs (onnx_path m) <;> simp [ensure_artifact, h]
  · by_cases h : fs (onnx_path m) <;> simp [ensure_artifact, h]
  · by_cases h : fs (onnx_path m) <;> simp [ensure_artifact, h]
  · intro c hc
    simp only [sanitizeModelName, List.mem_map] at hc
    obtain ⟨c', _, rfl⟩ := hc
    by_cases h : c' = '/'
    · simp [h]
    · simp [h]

/-- C7: the `/embed` route answers 400 with the missing-field message when
neither `text` nor `texts` is present, 200 with embeddings, dimension and
count when the pipeline succeeds, and 500 with the error string when the
pipeline raises. -/
theorem claim_C7 (pipeline : List String → String → Except String (List (List ℚ)))
    (d : EmbedRequest) :
    (embedTexts d = none →
      embedRoute pipeline d = .error 400 "Missing 'text' or 'texts' in request body") ∧
    (∀ texts embs, embedTexts d = some texts →
      pipeline texts (d.pfx.getD "passage") = .ok embs →
      embedRoute pipeline d = .ok embs (dimensionOf embs) texts.length) ∧
    (∀ texts e, embedTexts d = some texts →
      pipeline texts (d.pfx.getD "passage") = .error e →
      embedRoute pipeline d = .error 500 e) := by
  refine ⟨fun h => by simp [embedRoute, h], fun texts embs h hp => ?_,
    fun texts e h hp => ?_⟩ <;> simp [embedRoute, h, hp]

/-- C7 witness: the three branches at concrete requests and pipelines. -/
theorem claim_C7_witness :
    embedRoute (fun _ _ => .ok [[1]]) ⟨none, none, none⟩ =
      .error 400 "Missing 'text' or 'texts' in request body" ∧
    embedRoute (fun _ _ => .ok [[1]]) ⟨some "a", none, none⟩ = .ok [[1]] 1 1 ∧
    embedRoute (fun _ _ => .error "boom") ⟨some "a", none, none⟩ = .error 500 "boom" :=
  ⟨(claim_C7 (fun _ _ => .ok [[1]]) ⟨none, none, none⟩).1 rfl,
   (claim_C7 (fun _ _ => .ok [[1]]) ⟨some "a", none, none⟩).2.1 ["a"] [[1]] rfl rfl,
   (claim_C7 (fun _ _ => .error "boom") ⟨some "a", none, none⟩).2.2 ["a"] "boom" rfl rfl⟩

/-- C9: when both `text` and `texts` are present, `text` wins: only the
single string is embedded, `texts` is ignored and the count is 1. -/
theorem claim_C9 (pipeline : List String → String → Except String (List (List ℚ)))
    (t : String) (ts : List String) (p : Option String) :
    embedTexts ⟨some t, some ts, p⟩ = some [t] ∧
    (∀ embs, pipeline [t] (p.getD "passage") = .ok embs →
      embedRoute pipeline ⟨some t, some ts, p⟩ = .ok embs (dimensionOf embs) 1) := by
  refine ⟨rfl, fun embs h => ?_⟩
  simp [embedRoute, embedTexts, h]

/-- C9 witness: text precedence at a concrete request. -/
theorem claim_C9_witness :
    embedTexts ⟨some "a", some ["b", "c"], none⟩ = some ["a"] ∧
    embedRoute (fun _ _ => .ok [[1, 2]]) ⟨some "a", some ["b", "c"], none⟩ =
      .ok [[1, 2]] 2 1 :=
  ⟨(claim_C9 (fun _ _ => .ok [[1, 2]]) "a" ["b", "c"] none).1,
   (claim_C9 (fun _ _ => .ok [[1, 2]]) "a" ["b", "c"] none).2 [[1, 2]] rfl⟩

/-- C2 (the code lacks the claimed check): a request whose `texts` list is
empty passes validation (`embedTexts` yields `some []`, so the pipeline is
entered), the route never answers 400 for it, and a pipeline failure on it
surfaces as a 500. -/
theorem claim_C2 :
    embedTexts ⟨none, some [], none⟩ = some [] ∧
    (∀ (pipeline : List String → String → Except String (List (List ℚ)))
       (msg : String), embedRoute pipeline ⟨none, some [], none⟩ ≠ .error 400 msg) ∧
    (∀ e, embedRoute (fun _ _ => .error e) ⟨none, some [], none⟩ = .error 500 e) := by
  refine ⟨rfl, fun pipeline msg => ?_, fun e => rfl⟩
  simp only [embedRoute, embedTexts]
  cases hp : pipeline [] "passage" <;> simp [hp]

/-- C6: the mean-pooling divisor and the normalization divisor are both
clamped below at 1e-9, hence strictly positive, for every mask row,
square-root function and pooled vector; and `pool_and_normalize` divides
only by these divisors. -/
theorem claim_C6 {α : Type} [LinearOrderedField α] (sqrt : α → α)
    (mrow : List ℕ) (v : List α) (hidden : List (List (List α)))
    (mask : List (List ℕ)) :
    ((1 / 1000000000 : α) ≤ maskDivisor mrow ∧ (0 : α) < maskDivisor mrow) ∧
    ((1 / 1000000000 : α) ≤ normDivisor sqrt v ∧ (0 : α) < normDivisor sqrt v) ∧
    pool_and_normalize sqrt hidden mask =
      (mean_pooling hidden mask).map (fun w => w.map (fun x => x / normDivisor sqrt w)) :=
  ⟨⟨le_max_right _ _, lt_of_lt_of_le (by norm_num) (le_max_right _ _)⟩,
   ⟨le_max_right _ _, lt_of_lt_of_le (by norm_num) (le_max_right _ _)⟩, rfl⟩

/-- C10: for a batch row whose attention mask is all zeros,
`pool_and_normalize` returns the all-zero vector, whose L2 norm is 0 and
not 1. -/
theorem claim_C10 (row : List (List ℝ)) (mrow : List ℕ)
    (h : ∀ m ∈ mrow, m = 0) :
    ∀ v ∈ pool_and_normalize Real.sqrt [row] [mrow],
      (∀ x ∈ v, x = 0) ∧ Real.sqrt (sumSq v) = 0 ∧ Real.sqrt (sumSq v) ≠ 1 := by
  intro v hv
  simp only [pool_and_normalize, mean_pooling, normalize, List.zipWith_cons_cons,
    List.zipWith_nil_right, List.map_cons, List.map_nil, List.mem_singleton] at hv
  have hzero : ∀ x ∈ v, x = 0 := by
    subst hv
    intro x hx
    obtain ⟨y, hy, rfl⟩ := List.mem_map.mp hx
    obtain ⟨z, hz, rfl⟩ := List.mem_map.mp hy
    have hz0 : z = 0 := by
      refine sumVecs_eq_zero _ (fun w hw => ?_) z hz
      obtain ⟨vec, _, m, hm, rfl⟩ := mem_zipWith hw
      intro t ht
      obtain ⟨s, _, rfl⟩ := List.mem_map.mp ht
      rw [h m hm]
      simp
    rw [hz0]
    simp
  have hsq : sumSq v = 0 := by
    refine List.sum_eq_zero fun y hy => ?_
    obtain ⟨x, hx, rfl⟩ := List.mem_map.mp hy
    rw [hzero x hx, mul_zero]
  refine ⟨hzero, ?_, ?_⟩ <;> rw [hsq, Real.sqrt_zero]
  norm_num

/-- C10 witness: a concrete hidden-state row with an all-zero mask. -/
theorem claim_C10_witness :
    (∀ m ∈ ([0] : List ℕ), m = 0) ∧
    (∀ v ∈ pool_and_normalize Real.sqrt [[[(5 : ℝ), 7]]] [[0]],
      (∀ x ∈ v, x = 0) ∧ Real.sqrt (sumSq v) = 0 ∧ Real.sqrt (sumSq v) ≠ 1) :=
  ⟨by simp, claim_C10 [[(5 : ℝ), 7]] [0] (by simp)⟩

/-- C8: with prefix mode disabled, similarity is symmetric for every
tokenizer, model, square root and pair of texts (the prefixes are ignored
and the dot product commutes); with prefix mode enabled it need not be
symmetric, witnessed by a concrete tokenizer and model. -/
theorem claim_C8 :
    (∀ (sqrt : ℚ → ℚ) (tokenize : List String → TokenBatch)
       (model : TokenBatch → List (List (List ℚ))) (a b : String),
       similarityScore sqrt tokenize model false a b =
         similarityScore sqrt tokenize model false b a) ∧
    similarityScore sqrtEx tokEx mdlEx true "a" "bb" ≠
      similarityScore sqrtEx tokEx mdlEx true "bb" "a" := by
  constructor
  · intro sqrt tokenize model a b
    exact dotList_comm _ _
  · have l1 : ("query: a" : String).length = 8 := by decide
    have l2 : ("passage: bb" : String).length = 11 := by decide
    have l3 : ("query: bb" : String).length = 9 := by decide
    have l4 : ("passage: a" : String).length = 10 := by decide
    simp only [similarityScore, get_embeddings, pool_and_normalize, mean_pooling,
      normalize, maskDivisor, normDivisor, sumSq, sumVecs, vecAdd, dotList,
      tokEx, mdlEx, sqrtEx, List.map_cons, List.map_nil, List.zipWith_cons_cons,
      List.zipWith_nil_right, List.sum_cons, List.sum_nil, List.headD_cons,
      if_true, String.reduceAppend, l1, l2, l3, l4]
    norm_num

/-- C1: mean pooling on the synthetic tensor `[[[1,1],[3,3],[0,0]]]` with
attention mask `[1,1,0]` yields `[2,2]`, and the subsequent L2
normalization yields a vector whose entries are within 1e-4 of 0.7071. -/
theorem claim_C1 :
    mean_pooling [[[(1 : ℝ), 1], [3, 3], [0, 0]]] [[1, 1, 0]] = [[2, 2]] ∧
    ∃ y : ℝ,
      pool_and_normalize Real.sqrt [[[(1 : ℝ), 1], [3, 3], [0, 0]]] [[1, 1, 0]] =
        [[y, y]] ∧
      |y - 7071 / 10000| ≤ 1 / 10000 := by
  have hmp : mean_pooling [[[(1 : ℝ), 1], [3, 3], [0, 0]]] [[1, 1, 0]] = [[2, 2]] := by
    norm_num [mean_pooling, sumVecs, vecAdd, maskDivisor]
  have hub : Real.sqrt 8 < 28285 / 10000 := (Real.sqrt_lt' (by norm_num)).mpr (by norm_num)
  have hlb : (28282 / 10000 : ℝ) < Real.sqrt 8 := (Real.lt_sqrt (by norm_num)).mpr (by norm_num)
  have hpos : (0 : ℝ) < Real.sqrt 8 := lt_trans (by norm_num) hlb
  have hmax : max (Real.sqrt 8) (1 / 1000000000 : ℝ) = Real.sqrt 8 :=
    max_eq_left (le_trans (by norm_num) hlb.le)
  refine ⟨hmp, 2 / Real.sqrt 8, ?_, ?_⟩
  · simp only [pool_and_normalize]
    rw [hmp]
    simp only [normalize, normDivisor, sumSq, List.map_cons, List.map_nil,
      List.sum_cons, List.sum_nil]
    norm_num [hmax]
  · rw [abs_le]
    constructor
    · have h : (7070 / 10000 : ℝ) ≤ 2 / Real.sqrt 8 := by
        rw [le_div_iff₀ hpos]; linarith
      linarith
    · have h : 2 / Real.sqrt 8 ≤ 7072 / 10000 := by
        rw [div_le_iff₀ hpos]; linarith
      linarith

end App
